import Mathlib

/-!
Shallow embedding of `dags/person_overrides.py` (the `squash_person_overrides`
Dagster job over a ClickHouse cluster).

Modelling conventions:
* ClickHouse tables are lists of row structures; `system.mutations` is a list
  of `MutationEntry`; a dictionary is a partial map from its complex key.
* Timestamps, versions and checksums are `Int`; UUID values are `Nat`.
* Python `assert` failures and raised exceptions become `Except.error`.
* SQL parameter quoting of interpolated names is elided from command texts.
-/

namespace PersonOverrides

/-- A row of `posthog.person_distinct_id_overrides` (the override log).
`_timestamp` is the internal insertion timestamp column used by `populate`. -/
structure OverrideRow where
  team_id : Int
  distinct_id : String
  person_id : Nat
  version : Int
  _timestamp : Int
  deriving DecidableEq, Repr

/-- A row of the per-run snapshot table
`person_distinct_id_overrides_snapshot_{id.hex}`. -/
structure SnapshotRow where
  team_id : Int
  distinct_id : String
  person_id : Nat
  version : Int
  deriving DecidableEq, Repr

/-- A row of the sharded events table: `person_id` is the column the UPDATE
mutation rewrites; `event` and `timestamp` stand for all other columns. -/
structure EventRow where
  team_id : Int
  distinct_id : String
  person_id : Nat
  event : String
  timestamp : Int
  deriving DecidableEq, Repr

/-- The value stored in the snapshot dictionary under a
`(team_id, distinct_id)` key. -/
structure SnapshotVal where
  person_id : Nat
  version : Int
  deriving DecidableEq, Repr

/-- The dictionary contents: a partial map from `(team_id, distinct_id)`. -/
def Dict : Type := Int × String → Option SnapshotVal

def keyOf (r : OverrideRow) : Int × String := (r.team_id, r.distinct_id)

def snapshotKeyOf (s : SnapshotRow) : Int × String := (s.team_id, s.distinct_id)

/-! Section: PersonOverridesSnapshotTable -/

/-- The `PersonOverridesSnapshotTable`: dataclass with the run id (its uuid hex)
and the cutoff `timestamp` (modelled as a ClickHouse time point). -/
structure PersonOverridesSnapshotTable where
  id_hex : String
  timestamp : Int
  deriving DecidableEq, Repr

def PersonOverridesSnapshotTable.name (t : PersonOverridesSnapshotTable) : String :=
  "person_distinct_id_overrides_snapshot_" ++ t.id_hex

/-- The fold `bestOf b rows` computes ClickHouse `argMax(person_id, version)` /
`max(version)` over a group: the running best row is replaced whenever a
strictly larger version is seen. -/
def bestOf : OverrideRow → List OverrideRow → OverrideRow
  | b, [] => b
  | b, r :: rs => bestOf (if b.version < r.version then r else b) rs

/-- The aggregate produced for one `GROUP BY` key, `none` if no row of
`rows` has that key. -/
def aggKey (rows : List OverrideRow) (k : Int × String) : Option SnapshotRow :=
  match rows.filter (fun r => keyOf r = k) with
  | [] => none
  | r :: rs =>
      let best := bestOf r rs
      some ⟨k.1, k.2, best.person_id, best.version⟩

/-- The `INSERT INTO ... SELECT team_id, distinct_id, argMax(person_id, version),
max(version) ... GROUP BY team_id, distinct_id` aggregation over already
timestamp-filtered rows. -/
def snapshotAggregate (rows : List OverrideRow) : List SnapshotRow :=
  ((rows.map keyOf).dedup).filterMap (aggKey rows)

/-- The `PersonOverridesSnapshotTable.populate`: asserts the snapshot table is
empty (`assert count == 0`), then inserts the aggregation of override-log rows
with `_timestamp < %(timestamp)s`. On the assertion path no insert runs and
the error leaves the table rows as they were. -/
def PersonOverridesSnapshotTable.populate (t : PersonOverridesSnapshotTable)
    (log : List OverrideRow) (table : List SnapshotRow) :
    Except String (List SnapshotRow) :=
  if table.length = 0 then
    .ok (table ++ snapshotAggregate (log.filter (fun r => r._timestamp < t.timestamp)))
  else
    .error "assert count == 0"

/-- The `PersonOverridesSnapshotTable.sync` on one host: after
`SYSTEM SYNC REPLICA ... STRICT`, reads the `queue_size` of that host from
`system.replicas` and asserts it is zero. -/
def PersonOverridesSnapshotTable.sync (queue_size : Int) : Except String Unit :=
  if queue_size = 0 then .ok () else .error "assert queue_size == 0"

/-! Section: Mutations and system.mutations metadata -/

/-- The `Mutation`: handle on an asynchronous ALTER, identified by
`(table, mutation_id)`. -/
structure Mutation where
  table : String
  mutation_id : String
  deriving DecidableEq, Repr

/-- A row of `system.mutations`. -/
structure MutationEntry where
  database : String
  table : String
  mutation_id : String
  command : String
  create_time : Int
  is_killed : Bool
  deriving DecidableEq, Repr

/-- Checks that `as` is a prefix of `bs`, character by character. -/
def charsPrefixOf : List Char → List Char → Bool
  | [], _ => true
  | _ :: _, [] => false
  | a :: as, b :: bs => a == b && charsPrefixOf as bs

/-- Checks that `needle` occurs as a contiguous substring of the haystack. -/
def charsContains : List Char → List Char → Bool
  | [], needle => needle.isEmpty
  | h :: t, needle => charsPrefixOf needle (h :: t) || charsContains t needle

/-- ClickHouse `startsWith(s, p)`. -/
def strStartsWith (s p : String) : Bool := charsPrefixOf p.data s.data

/-- ClickHouse `s LIKE concat(..., sub, ...)`: substring containment. -/
def containsStr (s sub : String) : Bool := charsContains s.data sub.data

/-- The WHERE filter of `__find_existing_mutation`: same database and table,
`startsWith(command, %(command_kind)s)`, `command like concat(..., %(name)s, ...)`
and `NOT is_killed`. -/
def mutationMatches (db table command_kind name : String) (e : MutationEntry) : Bool :=
  e.database == db && e.table == table && strStartsWith e.command command_kind &&
    containsStr e.command name && !e.is_killed

/-- Insert an entry into a list already sorted by descending
`create_time`. -/
def insertByCreateTimeDesc (e : MutationEntry) :
    List MutationEntry → List MutationEntry
  | [] => [e]
  | x :: xs =>
      if x.create_time ≤ e.create_time then e :: x :: xs
      else x :: insertByCreateTimeDesc e xs

/-- Models `ORDER BY create_time DESC` (insertion sort). -/
def sortByCreateTimeDesc : List MutationEntry → List MutationEntry
  | [] => []
  | x :: xs => insertByCreateTimeDesc x (sortByCreateTimeDesc xs)

/-- The rows returned by the metadata query of `__find_existing_mutation`,
with its `ORDER BY create_time DESC`. -/
def matchingMutations (db table command_kind name : String)
    (entries : List MutationEntry) : List MutationEntry :=
  sortByCreateTimeDesc (entries.filter (mutationMatches db table command_kind name))

/-- The `PersonOverridesSnapshotDictionary.__find_existing_mutation`: returns
`none` on no match, the unique `Mutation` on one match, and fails the
`assert len(results) == 1` on two or more. -/
def find_existing_mutation (db table command_kind name : String)
    (entries : List MutationEntry) : Except String (Option Mutation) :=
  match matchingMutations db table command_kind name entries with
  | [] => .ok none
  | [e] => .ok (some ⟨table, e.mutation_id⟩)
  | _ => .error "assert len(results) == 1"

/-! Section: PersonOverridesSnapshotDictionary -/

/-- The `PersonOverridesSnapshotDictionary`: dataclass wrapping its source
snapshot table. -/
structure PersonOverridesSnapshotDictionary where
  source : PersonOverridesSnapshotTable
  deriving DecidableEq, Repr

def PersonOverridesSnapshotDictionary.name
    (d : PersonOverridesSnapshotDictionary) : String :=
  d.source.name ++ "_dictionary"

/-- One poll of `system.dictionaries` for the dictionary on a host: `none`
when the query returns no row (the dictionary does not exist), otherwise the
`(status, last_exception)` pair. -/
def DictPoll : Type := Option (String × String)

/-- The `PersonOverridesSnapshotDictionary.__is_loaded`: raises when the
dictionary does not exist, returns `true` on `LOADED`, `false` on the three
in-progress statuses, and raises on `FAILED` or anything else. -/
def is_loaded (poll : DictPoll) : Except String Bool :=
  match poll with
  | none => .error "dictionary does not exist"
  | some (status, last_exception) =>
      if status == "LOADED" then .ok true
      else if status == "LOADING" || status == "FAILED_AND_RELOADING" ||
          status == "LOADED_AND_RELOADING" then .ok false
      else if status == "FAILED" then .error ("failed to load: " ++ last_exception)
      else .error ("unexpected status: " ++ status)

/-- The `while not self.__is_loaded(client): time.sleep(5.0)` loop of `load`,
run against the successive poll results the host will report; an exhausted
list models a run in which loading was never observed to finish. -/
def loadPoll : List DictPoll → Except String Unit
  | [] => .error "still loading after all observed polls"
  | p :: rest =>
      match is_loaded p with
      | .error e => .error e
      | .ok true => .ok ()
      | .ok false => loadPoll rest

/-- The `PersonOverridesSnapshotDictionary.load` on one host: reload, poll until
loaded, then return the checksum the host computes over its dictionary
contents. -/
def load (polls : List DictPoll) (checksum : Int) : Except String Int :=
  match loadPoll polls with
  | .error e => .error e
  | .ok () => .ok checksum

/-! Section: Enqueueing the UPDATE and DELETE mutations -/

/-- System/database-wide state the mutation-enqueue code interacts with:
the `system.mutations` rows of one host, plus the fresh identities the engine
will assign to newly accepted ALTERs. -/
structure MutState where
  entries : List MutationEntry
  next_id : Nat
  clock : Int
  deriving DecidableEq, Repr

/-- Executing an `ALTER TABLE` registers a new non-killed mutation in
`system.mutations`, with an engine-assigned mutation id. -/
def execAlter (db table command : String) (st : MutState) : MutState :=
  { entries := st.entries ++
      [⟨db, table, "mutation_" ++ toString st.next_id, command, st.clock, false⟩],
    next_id := st.next_id + 1,
    clock := st.clock + 1 }

/-- The `command` text recorded by the person-id UPDATE ALTER (parameter
quoting elided). -/
def updateCommandText (name : String) : String :=
  "UPDATE person_id = dictGet(" ++ name ++ ", person_id, (team_id, distinct_id)) " ++
    "WHERE dictHas(" ++ name ++ ", (team_id, distinct_id))"

/-- The `command` text recorded by the overrides DELETE ALTER (parameter
quoting elided). -/
def deleteCommandText (name : String) : String :=
  "DELETE WHERE isNotNull(dictGetOrNull(" ++ name ++
    ", version, (team_id, distinct_id)) as snapshot_version) " ++
    "AND snapshot_version >= version"

/-- Common shape of `enqueue_person_id_update_mutation` and
`enqueue_overrides_delete_mutation`: reuse an existing matching mutation if
one is found, otherwise issue the ALTER and re-query, asserting the engine
registered it. -/
def enqueueMutation (db table command_kind name command : String)
    (st : MutState) : Except String (Mutation × MutState) :=
  match find_existing_mutation db table command_kind name st.entries with
  | .error e => .error e
  | .ok (some mutation) => .ok (mutation, st)
  | .ok none =>
      let st' := execAlter db table command st
      match find_existing_mutation db table command_kind name st'.entries with
      | .error e => .error e
      | .ok none => .error "assert mutation is not None"
      | .ok (some mutation) => .ok (mutation, st')

/-- The `EVENTS_DATA_TABLE()` from `posthog.models.event.sql` (module outside
this tree; the concrete name is immaterial, it is only used as a key). -/
def EVENTS_DATA_TABLE : String := "sharded_events"

/-- The `PERSON_DISTINCT_ID_OVERRIDES_TABLE` from `posthog.models.person.sql`
(module outside this tree; the concrete name is immaterial). -/
def PERSON_DISTINCT_ID_OVERRIDES_TABLE : String := "person_distinct_id_overrides"

/-- The `PersonOverridesSnapshotDictionary.enqueue_person_id_update_mutation`. -/
def enqueue_person_id_update_mutation (db : String)
    (d : PersonOverridesSnapshotDictionary) (st : MutState) :
    Except String (Mutation × MutState) :=
  enqueueMutation db EVENTS_DATA_TABLE "UPDATE" (db ++ "." ++ d.name)
    (updateCommandText (db ++ "." ++ d.name)) st

/-- The `PersonOverridesSnapshotDictionary.enqueue_overrides_delete_mutation`. -/
def enqueue_overrides_delete_mutation (db : String)
    (d : PersonOverridesSnapshotDictionary) (st : MutState) :
    Except String (Mutation × MutState) :=
  enqueueMutation db PERSON_DISTINCT_ID_OVERRIDES_TABLE "DELETE" (db ++ "." ++ d.name)
    (deleteCommandText (db ++ "." ++ d.name)) st

/-! Section: Row-level semantics of the two mutations -/

/-- The WHERE predicate of the DELETE mutation:
`isNotNull(dictGetOrNull(name, version, (team_id, distinct_id)) as snapshot_version)
AND snapshot_version >= version`. -/
def deleteMatches (dict : Dict) (r : OverrideRow) : Bool :=
  match dict (keyOf r) with
  | none => false
  | some v => r.version ≤ v.version

/-- Applying the DELETE mutation to the override log: rows matching the
predicate are removed. -/
def applyDeleteMutation (dict : Dict) (rows : List OverrideRow) : List OverrideRow :=
  rows.filter (fun r => !deleteMatches dict r)

/-- The UPDATE mutation on one event row:
`UPDATE person_id = dictGet(name, person_id, (team_id, distinct_id))
WHERE dictHas(name, (team_id, distinct_id))`. -/
def updateRow (dict : Dict) (r : EventRow) : EventRow :=
  match dict (r.team_id, r.distinct_id) with
  | some v => { r with person_id := v.person_id }
  | none => r

/-- Applying the UPDATE mutation to the events table. -/
def applyUpdateMutation (dict : Dict) (rows : List EventRow) : List EventRow :=
  rows.map (updateRow dict)

/-! Section: The squash_person_overrides job -/

/-- The loop of `Mutation.wait`, `while not self.is_done(client): time.sleep(15.0)`,
run against the successive `is_done` poll results; an exhausted list models a
run in which the mutation was never observed to finish. -/
def waitMutation : List Bool → Except String Unit
  | [] => .error "mutation not done after all observed polls"
  | b :: rest => if b then .ok () else waitMutation rest

/-- Fan-out over hosts or shards, as `.result()` on the cluster executor:
any single failure fails the aggregate. -/
def mapExcept (f : α → Except String β) : List α → Except String (List β)
  | [] => .ok []
  | a :: rest =>
      match f a with
      | .error e => .error e
      | .ok b =>
          match mapExcept f rest with
          | .error e => .error e
          | .ok bs => .ok (b :: bs)

/-- What one cluster host will report during a run: its replication queue
depth after the strict sync, its successive dictionary-status polls, and the
dictionary checksum it computes once loaded. -/
structure HostEnv where
  queue_size : Int
  dict_polls : List DictPoll
  checksum : Int

/-- The environment of one pipeline execution: the run id, the configured
cutoff, the override log, the hosts, one `system.mutations` state per shard
(for the per-shard UPDATE) and one for the cluster-wide overrides table,
and the poll results the mutation waits will observe. -/
structure PipelineEnv where
  run_id_hex : String
  timestamp : Int
  overridesLog : List OverrideRow
  hosts : List HostEnv
  shard_states : List MutState
  overrides_state : MutState
  update_polls : List Bool
  delete_polls : List Bool

/-- The `load_and_verify_snapshot_dictionary`: load on all hosts, then
`assert len(set(checksums.values())) == 1`. -/
def load_and_verify_snapshot_dictionary (hosts : List HostEnv) :
    Except String Unit :=
  match mapExcept (fun h => load h.dict_polls h.checksum) hosts with
  | .error e => .error e
  | .ok checksums =>
      if checksums.dedup.length = 1 then .ok ()
      else .error "assert len(set(checksums.values())) == 1"

/-- One step of the pipeline chain: if everything so far succeeded, record
that the next stage starts and run it; otherwise propagate the failure with
the trace unchanged (the stage never starts). -/
def andThen (acc : List String × Except String α) (stage : String)
    (f : α → Except String β) : List String × Except String β :=
  match acc with
  | (tr, .error e) => (tr, .error e)
  | (tr, .ok a) => (tr ++ [stage], f a)

/-- The stage names of `squash_person_overrides`, in their data-dependency
order in the job definition. -/
def stageOrder : List String :=
  ["create_snapshot_table", "populate_snapshot_table",
   "wait_for_snapshot_table_replication", "create_snapshot_dictionary",
   "load_and_verify_snapshot_dictionary", "start_person_id_update_mutations",
   "wait_for_person_id_update_mutations", "start_overrides_delete_mutations",
   "wait_for_overrides_delete_mutations", "drop_snapshot_dictionary",
   "drop_snapshot_table"]

/-- The `squash_person_overrides` job: the linear chain of ops, each stage
consuming the previous stage output, together with the trace of the stages
that were started. -/
def squashRun (db : String) (env : PipelineEnv) :
    List String × Except String Unit :=
  let s1 : List String × Except String PersonOverridesSnapshotTable :=
    (["create_snapshot_table"], .ok ⟨env.run_id_hex, env.timestamp⟩)
  let s2 := andThen s1 "populate_snapshot_table" (fun t =>
    match t.populate env.overridesLog [] with
    | .error e => .error e
    | .ok rows => .ok (t, rows))
  let s3 := andThen s2 "wait_for_snapshot_table_replication" (fun tr =>
    match mapExcept (fun h => PersonOverridesSnapshotTable.sync h.queue_size)
        env.hosts with
    | .error e => .error e
    | .ok _ => .ok tr)
  let s4 := andThen s3 "create_snapshot_dictionary" (fun tr =>
    .ok (PersonOverridesSnapshotDictionary.mk tr.1))
  let s5 := andThen s4 "load_and_verify_snapshot_dictionary" (fun d =>
    match load_and_verify_snapshot_dictionary env.hosts with
    | .error e => .error e
    | .ok () => .ok d)
  let s6 := andThen s5 "start_person_id_update_mutations" (fun d =>
    match mapExcept (fun st => enqueue_person_id_update_mutation db d st)
        env.shard_states with
    | .error e => .error e
    | .ok shard_mutations => .ok (d, shard_mutations))
  let s7 := andThen s6 "wait_for_person_id_update_mutations" (fun dm =>
    match mapExcept (fun _ => waitMutation env.update_polls) dm.2 with
    | .error e => .error e
    | .ok _ => .ok dm.1)
  let s8 := andThen s7 "start_overrides_delete_mutations" (fun d =>
    match enqueue_overrides_delete_mutation db d env.overrides_state with
    | .error e => .error e
    | .ok m => .ok (d, m.1))
  let s9 := andThen s8 "wait_for_overrides_delete_mutations" (fun dm =>
    match waitMutation env.delete_polls with
    | .error e => .error e
    | .ok () => .ok dm.1)
  let s10 := andThen s9 "drop_snapshot_dictionary" (fun d => .ok d.source)
  let s11 := andThen s10 "drop_snapshot_table" (fun _ => .ok ())
  s11

/-! Section: Concrete example inputs -/

/-- Example dictionary contents with a single entry for `(1, "A")` mapping to
person `9` at version `2`. -/
def exDict : Dict := fun k => if k = ((1 : Int), "A") then some ⟨9, 2⟩ else none

/-- Example dictionary contents with a single entry for `(1, "A")` mapping to
person `7` at version `3`. -/
def exDict2 : Dict := fun k => if k = ((1 : Int), "A") then some ⟨7, 3⟩ else none

/-- The override log of the end-to-end scenario of the spec: two overrides
for `(1, "A")` at versions 1 and 2, written at times 0 and 1. -/
def exLog : List OverrideRow := [⟨1, "A", 9, 1, 0⟩, ⟨1, "A", 9, 2, 1⟩]

/-- A snapshot table for run id hex `x` with cutoff time 2. -/
def exTable : PersonOverridesSnapshotTable := ⟨"x", 2⟩

/-- The single snapshot row produced from `exLog` at cutoff 2. -/
def exOut : List SnapshotRow := [⟨1, "A", 9, 2⟩]

/-- A pipeline environment in which every stage succeeds: one healthy host,
one shard with a fresh mutation state, and mutations that report done on the
first poll. -/
def exEnv : PipelineEnv :=
  ⟨"x", 2, exLog, [⟨0, [some ("LOADED", "")], 7⟩], [⟨[], 0, 0⟩], ⟨[], 0, 0⟩,
    [true], [true]⟩

/-- A pipeline environment whose two hosts load successfully but report
different dictionary checksums. -/
def exEnvDiv : PipelineEnv :=
  ⟨"x", 2, exLog,
    [⟨0, [some ("LOADED", "")], 7⟩, ⟨0, [some ("LOADED", "")], 8⟩],
    [⟨[], 0, 0⟩], ⟨[], 0, 0⟩, [true], [true]⟩

/-! Theorems for the claims. -/

/-- C1. For every override row with version `v` and key
`(team_id, distinct_id)`: the DELETE mutation issued by
`enqueue_overrides_delete_mutation` deletes the row iff the snapshot
dictionary has an entry for that key with version `s ≥ v`; a row whose key
has no snapshot entry is never deleted. -/
theorem C1_delete_version_ordering (dict : Dict) (rows : List OverrideRow)
    (r : OverrideRow) (hr : r ∈ rows) :
    (r ∉ applyDeleteMutation dict rows ↔
      ∃ s, (dict (keyOf r)).map SnapshotVal.version = some s ∧ r.version ≤ s) ∧
    (dict (keyOf r) = none → r ∈ applyDeleteMutation dict rows) := by
  unfold applyDeleteMutation
  constructor
  · simp only [List.mem_filter, hr, true_and, Bool.not_eq_true', Bool.not_eq_false]
    unfold deleteMatches
    cases h : dict (keyOf r) with
    | none => simp
    | some v => simp [h]
  · intro h
    simp [List.mem_filter, hr, deleteMatches, h]

/-- Witness for C1 at the concrete dictionary `exDict` and the single
override row `(1, "A", 9, 1)`. -/
theorem C1_delete_version_ordering_witness :
    (((⟨1, "A", 9, 1, 0⟩ : OverrideRow) ∉
        applyDeleteMutation exDict [⟨1, "A", 9, 1, 0⟩] ↔
      ∃ s, (exDict (keyOf ⟨1, "A", 9, 1, 0⟩)).map SnapshotVal.version = some s ∧
        (⟨1, "A", 9, 1, 0⟩ : OverrideRow).version ≤ s) ∧
    (exDict (keyOf ⟨1, "A", 9, 1, 0⟩) = none →
      (⟨1, "A", 9, 1, 0⟩ : OverrideRow) ∈
        applyDeleteMutation exDict [⟨1, "A", 9, 1, 0⟩])) :=
  C1_delete_version_ordering exDict [⟨1, "A", 9, 1, 0⟩] ⟨1, "A", 9, 1, 0⟩
    (by decide)

/-- C2. `populate()` on a non-empty snapshot table fails its empty-table
assertion, returning the error without executing the insert (the table rows
are unchanged); on an empty table the insert of the aggregation proceeds. -/
theorem C2_populate_empty_precondition (t : PersonOverridesSnapshotTable)
    (log : List OverrideRow) (table : List SnapshotRow) :
    (table ≠ [] → t.populate log table = .error "assert count == 0") ∧
    (table = [] → t.populate log table =
      .ok (snapshotAggregate (log.filter (fun r => r._timestamp < t.timestamp)))) := by
  unfold PersonOverridesSnapshotTable.populate
  constructor
  · intro h
    rw [if_neg]
    simpa using h
  · intro h
    subst h
    simp

/-- Witness for C2: a one-row table makes `populate` fail; the empty table
accepts the insert. -/
theorem C2_populate_empty_precondition_witness :
    ((PersonOverridesSnapshotTable.mk "x" 2).populate [] [⟨1, "A", 9, 1⟩] =
      .error "assert count == 0") ∧
    ((PersonOverridesSnapshotTable.mk "x" 2).populate [] [] =
      .ok (snapshotAggregate (List.filter
        (fun r => r._timestamp < (PersonOverridesSnapshotTable.mk "x" 2).timestamp) []))) :=
  ⟨(C2_populate_empty_precondition (PersonOverridesSnapshotTable.mk "x" 2) []
      [⟨1, "A", 9, 1⟩]).1 (by decide),
   (C2_populate_empty_precondition (PersonOverridesSnapshotTable.mk "x" 2) [] []).2 rfl⟩

/-- C5. `sync()` on a host returns successfully iff that host reports a
zero replication queue depth after the strict replica-sync command; a
non-zero `queue_size` fails the assertion. -/
theorem C5_sync_replication_barrier (queue_size : Int) :
    PersonOverridesSnapshotTable.sync queue_size = .ok () ↔ queue_size = 0 := by
  unfold PersonOverridesSnapshotTable.sync
  split <;> simp_all

/-- C8. The UPDATE mutation sets the `person_id` of a row to the dictionary
value for its key exactly when the dictionary has that key, and leaves every
field of a row with an absent key unchanged; on the table it acts row by
row. -/
theorem C8_update_mutation_frame (dict : Dict) (r : EventRow) :
    (∀ v, dict (r.team_id, r.distinct_id) = some v →
      updateRow dict r = { r with person_id := v.person_id }) ∧
    (dict (r.team_id, r.distinct_id) = none → updateRow dict r = r) ∧
    (∀ rows : List EventRow, applyUpdateMutation dict rows = rows.map (updateRow dict)) := by
  refine ⟨fun v hv => ?_, fun h => ?_, fun _ => rfl⟩
  · unfold updateRow
    rw [hv]
  · unfold updateRow
    rw [h]

/-- Witness for C8: with `exDict2`, the matching row has its `person_id`
rewritten to `7` with all other fields kept, and the non-matching row is
unchanged. -/
theorem C8_update_mutation_frame_witness :
    updateRow exDict2 ⟨1, "A", 5, "click", 10⟩ = ⟨1, "A", 7, "click", 10⟩ ∧
    updateRow exDict2 ⟨2, "B", 5, "click", 10⟩ = ⟨2, "B", 5, "click", 10⟩ :=
  ⟨(C8_update_mutation_frame exDict2 ⟨1, "A", 5, "click", 10⟩).1 ⟨7, 3⟩ (by decide),
   (C8_update_mutation_frame exDict2 ⟨2, "B", 5, "click", 10⟩).2.1 (by decide)⟩

/-- C10. When the dictionary does not exist on the queried host
(`system.dictionaries` returns no row), the load-status poll raises
"dictionary does not exist" immediately — regardless of any later polls —
so `load()` called before `create()` fails rather than waiting. -/
theorem C10_missing_dictionary_fails_fast (rest : List DictPoll) (checksum : Int) :
    is_loaded none = .error "dictionary does not exist" ∧
    loadPoll (none :: rest) = .error "dictionary does not exist" ∧
    load (none :: rest) checksum = .error "dictionary does not exist" := by
  refine ⟨rfl, ?_, ?_⟩ <;> simp [loadPoll, load, is_loaded]

/-- Inserting into the sorted metadata rows is a permutation of consing. -/
theorem insertByCreateTimeDesc_perm (e : MutationEntry) (l : List MutationEntry) :
    List.Perm (insertByCreateTimeDesc e l) (e :: l) := by
  induction l with
  | nil => simp [insertByCreateTimeDesc]
  | cons x xs ih =>
      unfold insertByCreateTimeDesc
      split
      · exact List.Perm.refl _
      · exact (List.Perm.cons x ih).trans (List.Perm.swap e x xs)

/-- The `ORDER BY` sort is a permutation of the filtered metadata rows. -/
theorem sortByCreateTimeDesc_perm (l : List MutationEntry) :
    List.Perm (sortByCreateTimeDesc l) l := by
  induction l with
  | nil => exact List.Perm.refl _
  | cons x xs ih =>
      unfold sortByCreateTimeDesc
      exact (insertByCreateTimeDesc_perm x (sortByCreateTimeDesc xs)).trans
        (List.Perm.cons x ih)

/-- C6. `__find_existing_mutation` considers exactly the non-killed
mutations on the given table whose command starts with the command kind and
contains the dictionary name: it returns `None` iff no entry matches, the
unique `Mutation(table, mutation_id)` iff exactly one matches, and fails the
result-count assertion iff the metadata query returns two or more matches. -/
theorem C6_find_existing_mutation_characterization (db table kind name : String)
    (entries : List MutationEntry) :
    (find_existing_mutation db table kind name entries = .ok none ↔
      entries.filter (mutationMatches db table kind name) = []) ∧
    (∀ m, find_existing_mutation db table kind name entries = .ok (some m) ↔
      ∃ e, entries.filter (mutationMatches db table kind name) = [e] ∧
        m = ⟨table, e.mutation_id⟩) ∧
    ((∃ err, find_existing_mutation db table kind name entries = .error err) ↔
      2 ≤ (entries.filter (mutationMatches db table kind name)).length) := by
  have hperm : List.Perm (matchingMutations db table kind name entries)
      (entries.filter (mutationMatches db table kind name)) :=
    sortByCreateTimeDesc_perm _
  unfold find_existing_mutation
  cases h : matchingMutations db table kind name entries with
  | nil =>
      rw [h] at hperm
      have hl : entries.filter (mutationMatches db table kind name) = [] :=
        hperm.nil_eq.symm
      simp [hl]
  | cons e es =>
      cases es with
      | nil =>
          rw [h] at hperm
          have hl : entries.filter (mutationMatches db table kind name) = [e] :=
            List.perm_singleton.mp hperm.symm
          simp only [hl]
          refine ⟨by simp, fun m => ?_, by simp⟩
          constructor
          · intro hm
            exact ⟨e, rfl, (by simpa using hm.symm)⟩
          · rintro ⟨e', he', rfl⟩
            simp only [List.cons.injEq] at he'
            simp [he'.1]
      | cons e2 es2 =>
          rw [h] at hperm
          have hlen : (entries.filter (mutationMatches db table kind name)).length =
              es2.length + 2 := by
            simpa using hperm.length_eq.symm
          refine ⟨⟨fun hcontra => by simp at hcontra,
              fun hfil => by rw [hfil] at hlen; simp at hlen⟩,
            fun m => ⟨fun hcontra => by simp at hcontra, ?_⟩,
            fun _ => by rw [hlen]; omega,
            fun _ => ⟨"assert len(results) == 1", rfl⟩⟩
          rintro ⟨e', he', _⟩
          rw [he'] at hlen
          simp at hlen

/-- If no `system.mutations` entry matches, `__find_existing_mutation`
returns `None`. -/
theorem find_existing_of_filter_nil (db table kind name : String)
    (entries : List MutationEntry)
    (h : entries.filter (mutationMatches db table kind name) = []) :
    find_existing_mutation db table kind name entries = .ok none := by
  unfold find_existing_mutation matchingMutations
  rw [h]
  rfl

/-- If exactly one `system.mutations` entry matches,
`__find_existing_mutation` returns its handle. -/
theorem find_existing_of_filter_singleton (db table kind name : String)
    (entries : List MutationEntry) (e : MutationEntry)
    (h : entries.filter (mutationMatches db table kind name) = [e]) :
    find_existing_mutation db table kind name entries =
      .ok (some ⟨table, e.mutation_id⟩) := by
  unfold find_existing_mutation matchingMutations
  rw [h]
  rfl

/-- Enqueueing against a state with no matching live mutation issues the
ALTER once; the resulting state has exactly one matching live mutation, and
enqueueing again returns the same handle with the state unchanged. -/
theorem enqueueMutation_fresh (db table kind name cmd : String) (st : MutState)
    (h0 : st.entries.filter (mutationMatches db table kind name) = [])
    (hm : mutationMatches db table kind name
      ⟨db, table, "mutation_" ++ toString st.next_id, cmd, st.clock, false⟩ = true) :
    enqueueMutation db table kind name cmd st =
      .ok (⟨table, "mutation_" ++ toString st.next_id⟩, execAlter db table cmd st) ∧
    enqueueMutation db table kind name cmd (execAlter db table cmd st) =
      .ok (⟨table, "mutation_" ++ toString st.next_id⟩, execAlter db table cmd st) ∧
    ((execAlter db table cmd st).entries.filter
      (mutationMatches db table kind name)).length = 1 := by
  have hfil' : (execAlter db table cmd st).entries.filter
      (mutationMatches db table kind name) =
      [⟨db, table, "mutation_" ++ toString st.next_id, cmd, st.clock, false⟩] := by
    simp [execAlter, List.filter_append, h0, hm]
  have hfind1 := find_existing_of_filter_nil db table kind name st.entries h0
  have hfind2 := find_existing_of_filter_singleton db table kind name
    (execAlter db table cmd st).entries _ hfil'
  refine ⟨?_, ?_, by rw [hfil']; rfl⟩
  · unfold enqueueMutation
    simp [hfind1, hfind2]
  · unfold enqueueMutation
    simp [hfind2]

/-- C3. Starting from states with no matching live mutation, calling
`enqueue_person_id_update_mutation` (resp.
`enqueue_overrides_delete_mutation`) twice in succession yields exactly one
live matching mutation in `system.mutations`, and the second call returns
the same `(table, mutation_id)` handle without issuing a new ALTER (the
state is unchanged). -/
theorem C3_idempotent_enqueue (db : String) (d : PersonOverridesSnapshotDictionary)
    (stU stD : MutState)
    (hU0 : stU.entries.filter
      (mutationMatches db EVENTS_DATA_TABLE "UPDATE" (db ++ "." ++ d.name)) = [])
    (hU1 : mutationMatches db EVENTS_DATA_TABLE "UPDATE" (db ++ "." ++ d.name)
      ⟨db, EVENTS_DATA_TABLE, "mutation_" ++ toString stU.next_id,
        updateCommandText (db ++ "." ++ d.name), stU.clock, false⟩ = true)
    (hD0 : stD.entries.filter
      (mutationMatches db PERSON_DISTINCT_ID_OVERRIDES_TABLE "DELETE"
        (db ++ "." ++ d.name)) = [])
    (hD1 : mutationMatches db PERSON_DISTINCT_ID_OVERRIDES_TABLE "DELETE"
      (db ++ "." ++ d.name)
      ⟨db, PERSON_DISTINCT_ID_OVERRIDES_TABLE, "mutation_" ++ toString stD.next_id,
        deleteCommandText (db ++ "." ++ d.name), stD.clock, false⟩ = true) :
    (∃ m stU', enqueue_person_id_update_mutation db d stU = .ok (m, stU') ∧
      enqueue_person_id_update_mutation db d stU' = .ok (m, stU') ∧
      (stU'.entries.filter
        (mutationMatches db EVENTS_DATA_TABLE "UPDATE" (db ++ "." ++ d.name))).length = 1) ∧
    (∃ m stD', enqueue_overrides_delete_mutation db d stD = .ok (m, stD') ∧
      enqueue_overrides_delete_mutation db d stD' = .ok (m, stD') ∧
      (stD'.entries.filter
        (mutationMatches db PERSON_DISTINCT_ID_OVERRIDES_TABLE "DELETE"
          (db ++ "." ++ d.name))).length = 1) := by
  obtain ⟨hu1, hu2, hu3⟩ := enqueueMutation_fresh db EVENTS_DATA_TABLE "UPDATE"
    (db ++ "." ++ d.name) (updateCommandText (db ++ "." ++ d.name)) stU hU0 hU1
  obtain ⟨hd1, hd2, hd3⟩ := enqueueMutation_fresh db PERSON_DISTINCT_ID_OVERRIDES_TABLE
    "DELETE" (db ++ "." ++ d.name) (deleteCommandText (db ++ "." ++ d.name)) stD hD0 hD1
  exact ⟨⟨_, _, hu1, hu2, hu3⟩, ⟨_, _, hd1, hd2, hd3⟩⟩

/-- Witness for C3 on fresh mutation states and the dictionary of the run
with id hex `x`, in database `posthog`. -/
theorem C3_idempotent_enqueue_witness :
    (∃ m stU', enqueue_person_id_update_mutation "posthog"
        ⟨⟨"x", 2⟩⟩ ⟨[], 0, 0⟩ = .ok (m, stU') ∧
      enqueue_person_id_update_mutation "posthog" ⟨⟨"x", 2⟩⟩ stU' = .ok (m, stU') ∧
      (stU'.entries.filter (mutationMatches "posthog" EVENTS_DATA_TABLE "UPDATE"
        ("posthog" ++ "." ++ (PersonOverridesSnapshotDictionary.mk ⟨"x", 2⟩).name))).length = 1) ∧
    (∃ m stD', enqueue_overrides_delete_mutation "posthog"
        ⟨⟨"x", 2⟩⟩ ⟨[], 0, 0⟩ = .ok (m, stD') ∧
      enqueue_overrides_delete_mutation "posthog" ⟨⟨"x", 2⟩⟩ stD' = .ok (m, stD') ∧
      (stD'.entries.filter (mutationMatches "posthog" PERSON_DISTINCT_ID_OVERRIDES_TABLE
        "DELETE"
        ("posthog" ++ "." ++ (PersonOverridesSnapshotDictionary.mk ⟨"x", 2⟩).name))).length = 1) :=
  C3_idempotent_enqueue "posthog" ⟨⟨"x", 2⟩⟩ ⟨[], 0, 0⟩ ⟨[], 0, 0⟩
    rfl (by decide) rfl (by decide)

/-- The running best row of `bestOf` is one of the candidates. -/
theorem bestOf_mem (b : OverrideRow) (l : List OverrideRow) : bestOf b l ∈ b :: l := by
  induction l generalizing b with
  | nil => simp [bestOf]
  | cons r rs ih =>
      have h := ih (if b.version < r.version then r else b)
      rw [List.mem_cons] at h
      unfold bestOf
      rcases h with h | h
      · rw [h]
        split <;> simp
      · simp [h]

/-- The running best row of `bestOf` has the maximal version among the
candidates. -/
theorem bestOf_version_le (b : OverrideRow) (l : List OverrideRow) :
    ∀ x ∈ b :: l, x.version ≤ (bestOf b l).version := by
  induction l generalizing b with
  | nil =>
      intro x hx
      rw [List.mem_singleton] at hx
      subst hx
      simp [bestOf]
  | cons r rs ih =>
      intro x hx
      unfold bestOf
      have hb : b.version ≤ (if b.version < r.version then r else b).version := by
        split <;> omega
      have hr : r.version ≤ (if b.version < r.version then r else b).version := by
        split <;> omega
      rcases List.mem_cons.mp hx with rfl | hx2
      · exact le_trans hb (ih _ _ (List.mem_cons_self _ _))
      rcases List.mem_cons.mp hx2 with rfl | hx3
      · exact le_trans hr (ih _ _ (List.mem_cons_self _ _))
      · exact ih _ x (List.mem_cons_of_mem _ hx3)

/-- A `filterMap` that succeeds on every element of `l`, with `g` a left
inverse on the produced values, maps back onto `l`. -/
theorem filterMap_map_eq_self {κ β : Type} (l : List κ) (f : κ → Option β)
    (g : β → κ) (h : ∀ k ∈ l, ∃ s, f k = some s ∧ g s = k) :
    (l.filterMap f).map g = l := by
  induction l with
  | nil => rfl
  | cons a t ih =>
      obtain ⟨s, hs, hgs⟩ := h a (List.mem_cons_self a t)
      rw [List.filterMap_cons, hs]
      simp only [List.map_cons, hgs]
      rw [ih (fun k hk => h k (List.mem_cons_of_mem a hk))]

/-- For each key occurring in `rows`, `aggKey` produces one snapshot row,
keyed by that key, carrying the person id of a maximal-version member of the
group and the maximal version of the group. -/
theorem aggKey_spec (rows : List OverrideRow) (k : Int × String)
    (hk : k ∈ rows.map keyOf) :
    ∃ s, aggKey rows k = some s ∧ snapshotKeyOf s = k ∧
      (∃ r ∈ rows, keyOf r = k ∧ s.person_id = r.person_id ∧ s.version = r.version) ∧
      (∀ r ∈ rows, keyOf r = k → r.version ≤ s.version) := by
  obtain ⟨r0, hr0, hk0⟩ := List.mem_map.mp hk
  have hmem : r0 ∈ rows.filter (fun r => keyOf r = k) := by
    simp [List.mem_filter, hr0, hk0]
  unfold aggKey
  cases hfil : rows.filter (fun r => keyOf r = k) with
  | nil =>
      rw [hfil] at hmem
      simp at hmem
  | cons r rs =>
      refine ⟨_, rfl, by simp [snapshotKeyOf], ?_, ?_⟩
      · have hb : bestOf r rs ∈ rows.filter (fun r => keyOf r = k) := by
          rw [hfil]
          exact bestOf_mem r rs
        rw [List.mem_filter] at hb
        exact ⟨bestOf r rs, hb.1, by simpa using hb.2, rfl, rfl⟩
      · intro r' hr' hkr'
        have hmem' : r' ∈ rows.filter (fun r => keyOf r = k) := by
          simp [List.mem_filter, hr', hkr']
        rw [hfil] at hmem'
        exact bestOf_version_le r rs r' hmem'

/-- The keys of the aggregation output are exactly the deduplicated keys of
the input rows. -/
theorem snapshotAggregate_keys (rows : List OverrideRow) :
    (snapshotAggregate rows).map snapshotKeyOf = (rows.map keyOf).dedup := by
  unfold snapshotAggregate
  apply filterMap_map_eq_self
  intro k hk
  obtain ⟨s, hs, hks, _, _⟩ := aggKey_spec rows k (List.mem_dedup.mp hk)
  exact ⟨s, hs, hks⟩

/-- Every aggregation output row is the argMax-by-version aggregate of its
group. -/
theorem snapshotAggregate_mem (rows : List OverrideRow) (s : SnapshotRow)
    (hs : s ∈ snapshotAggregate rows) :
    (∃ r ∈ rows, keyOf r = snapshotKeyOf s ∧ s.person_id = r.person_id ∧
      s.version = r.version) ∧
    (∀ r ∈ rows, keyOf r = snapshotKeyOf s → r.version ≤ s.version) := by
  unfold snapshotAggregate at hs
  obtain ⟨k, hk, hak⟩ := List.mem_filterMap.mp hs
  obtain ⟨s', hs', hks', hex, hmax⟩ := aggKey_spec rows k (List.mem_dedup.mp hk)
  rw [hs'] at hak
  cases hak
  rw [hks']
  exact ⟨hex, hmax⟩

/-- C7. `populate()` on an empty snapshot table inserts exactly one row
per `(team_id, distinct_id)` group among overrides with timestamp strictly
before the cutoff (the output keys are the deduplicated group keys, with no
duplicates), each row carrying the person id of a maximum-version override
of its group and the maximum version of the group; overrides with timestamp at or
after the cutoff contribute nothing. -/
theorem C7_populate_aggregation (t : PersonOverridesSnapshotTable)
    (log : List OverrideRow) (out : List SnapshotRow)
    (hout : t.populate log [] = .ok out) :
    (out.map snapshotKeyOf =
      ((log.filter (fun r => r._timestamp < t.timestamp)).map keyOf).dedup) ∧
    (out.map snapshotKeyOf).Nodup ∧
    (∀ s ∈ out,
      (∃ r ∈ log.filter (fun r => r._timestamp < t.timestamp),
        keyOf r = snapshotKeyOf s ∧ s.person_id = r.person_id ∧
          s.version = r.version) ∧
      (∀ r ∈ log.filter (fun r => r._timestamp < t.timestamp),
        keyOf r = snapshotKeyOf s → r.version ≤ s.version)) ∧
    (∀ extra : List OverrideRow, (∀ r ∈ extra, t.timestamp ≤ r._timestamp) →
      t.populate (log ++ extra) [] = .ok out) := by
  have hout' : out =
      snapshotAggregate (log.filter (fun r => r._timestamp < t.timestamp)) := by
    unfold PersonOverridesSnapshotTable.populate at hout
    simpa using hout.symm
  subst hout'
  refine ⟨snapshotAggregate_keys _, ?_, ?_, ?_⟩
  · rw [snapshotAggregate_keys]
    exact List.nodup_dedup _
  · intro s hs
    exact snapshotAggregate_mem _ s hs
  · intro extra hextra
    unfold PersonOverridesSnapshotTable.populate
    have hnil : extra.filter (fun r => r._timestamp < t.timestamp) = [] := by
      rw [List.filter_eq_nil_iff]
      intro r hr
      simpa using not_lt.mpr (hextra r hr)
    simp [List.filter_append, hnil]

/-- Witness for C7 on the end-to-end scenario of the spec: two overrides for
`(1, "A")` at versions 1 and 2 before the cutoff produce the single snapshot
row `(1, "A", 9, 2)`. -/
theorem C7_populate_aggregation_witness :
    (exOut.map snapshotKeyOf =
      ((exLog.filter (fun r => r._timestamp < exTable.timestamp)).map keyOf).dedup) ∧
    (exOut.map snapshotKeyOf).Nodup ∧
    (∀ s ∈ exOut,
      (∃ r ∈ exLog.filter (fun r => r._timestamp < exTable.timestamp),
        keyOf r = snapshotKeyOf s ∧ s.person_id = r.person_id ∧
          s.version = r.version) ∧
      (∀ r ∈ exLog.filter (fun r => r._timestamp < exTable.timestamp),
        keyOf r = snapshotKeyOf s → r.version ≤ s.version)) ∧
    (∀ extra : List OverrideRow, (∀ r ∈ extra, exTable.timestamp ≤ r._timestamp) →
      exTable.populate (exLog ++ extra) [] = .ok exOut) :=
  C7_populate_aggregation exTable exLog exOut rfl

/-- The `load` on a host returns the checksum that host computed. -/
theorem load_ok_checksum (polls : List DictPoll) (c x : Int)
    (h : load polls c = .ok x) : x = c := by
  unfold load at h
  cases hp : loadPoll polls with
  | error e => rw [hp] at h; simp at h
  | ok u => rw [hp] at h; simpa using h.symm

/-- If loading succeeds on every host, the collected checksums are exactly
the per-host checksums. -/
theorem mapExcept_load_ok (hosts : List HostEnv) (cs : List Int)
    (h : mapExcept (fun h => load h.dict_polls h.checksum) hosts = .ok cs) :
    cs = hosts.map HostEnv.checksum := by
  induction hosts generalizing cs with
  | nil =>
      unfold mapExcept at h
      simpa using h.symm
  | cons a t ih =>
      unfold mapExcept at h
      cases hl : load a.dict_polls a.checksum with
      | error e => rw [hl] at h; simp at h
      | ok c =>
          rw [hl] at h
          cases hm : mapExcept (fun h => load h.dict_polls h.checksum) t with
          | error e => rw [hm] at h; simp at h
          | ok cs' =>
              rw [hm] at h
              have hc : c = a.checksum := load_ok_checksum a.dict_polls a.checksum c hl
              have hcs : cs = c :: cs' := by simpa using h.symm
              rw [hcs, hc, ih cs' hm]
              rfl

/-- If two hosts report different checksums, `load_and_verify` fails its
all-identical assertion (or an earlier load error). -/
theorem load_and_verify_fails_of_diverging (hosts : List HostEnv)
    (h : ∃ a ∈ hosts.map HostEnv.checksum, ∃ b ∈ hosts.map HostEnv.checksum, a ≠ b) :
    ∃ e, load_and_verify_snapshot_dictionary hosts = .error e := by
  unfold load_and_verify_snapshot_dictionary
  cases hm : mapExcept (fun h => load h.dict_polls h.checksum) hosts with
  | error e => exact ⟨e, rfl⟩
  | ok cs =>
      have hcs : cs = hosts.map HostEnv.checksum := mapExcept_load_ok hosts cs hm
      obtain ⟨a, ha, b, hb, hab⟩ := h
      have hne : cs.dedup.length ≠ 1 := by
        intro hlen
        obtain ⟨c, hc⟩ := List.length_eq_one.mp hlen
        have ha' : a ∈ cs.dedup := by
          rw [hcs]; exact List.mem_dedup.mpr ha
        have hb' : b ∈ cs.dedup := by
          rw [hcs]; exact List.mem_dedup.mpr hb
        rw [hc] at ha' hb'
        simp only [List.mem_singleton] at ha' hb'
        exact hab (ha'.trans hb'.symm)
      simp [hne]

/-- If the replication barrier fails on some host, the run stops after the
first three stages. -/
theorem squashRun_sync_error (db : String) (env : PipelineEnv) (e : String)
    (hs : mapExcept (fun h => PersonOverridesSnapshotTable.sync h.queue_size)
      env.hosts = .error e) :
    squashRun db env =
      (["create_snapshot_table", "populate_snapshot_table",
        "wait_for_snapshot_table_replication"], .error e) := by
  unfold squashRun
  simp [andThen, PersonOverridesSnapshotTable.populate, hs]

/-- If the checksum gate fails, the run stops after the first five stages. -/
theorem squashRun_loadVerify_error (db : String) (env : PipelineEnv)
    (qs : List Unit) (e : String)
    (hs : mapExcept (fun h => PersonOverridesSnapshotTable.sync h.queue_size)
      env.hosts = .ok qs)
    (hlv : load_and_verify_snapshot_dictionary env.hosts = .error e) :
    squashRun db env =
      (["create_snapshot_table", "populate_snapshot_table",
        "wait_for_snapshot_table_replication", "create_snapshot_dictionary",
        "load_and_verify_snapshot_dictionary"], .error e) := by
  unfold squashRun
  simp [andThen, PersonOverridesSnapshotTable.populate, hs, hlv]

/-- If enqueueing some shard UPDATE fails, the run stops after six stages. -/
theorem squashRun_startUpdates_error (db : String) (env : PipelineEnv)
    (qs : List Unit) (e : String)
    (hs : mapExcept (fun h => PersonOverridesSnapshotTable.sync h.queue_size)
      env.hosts = .ok qs)
    (hlv : load_and_verify_snapshot_dictionary env.hosts = .ok ())
    (hsu : mapExcept (fun st => enqueue_person_id_update_mutation db
        (PersonOverridesSnapshotDictionary.mk
          (PersonOverridesSnapshotTable.mk env.run_id_hex env.timestamp)) st)
      env.shard_states = .error e) :
    squashRun db env =
      (["create_snapshot_table", "populate_snapshot_table",
        "wait_for_snapshot_table_replication", "create_snapshot_dictionary",
        "load_and_verify_snapshot_dictionary",
        "start_person_id_update_mutations"], .error e) := by
  unfold squashRun
  simp [andThen, PersonOverridesSnapshotTable.populate, hs, hlv, hsu]

/-- If waiting on some shard UPDATE fails, the run stops after seven
stages. -/
theorem squashRun_waitUpdates_error (db : String) (env : PipelineEnv)
    (qs : List Unit) (sm : List (Mutation × MutState)) (e : String)
    (hs : mapExcept (fun h => PersonOverridesSnapshotTable.sync h.queue_size)
      env.hosts = .ok qs)
    (hlv : load_and_verify_snapshot_dictionary env.hosts = .ok ())
    (hsu : mapExcept (fun st => enqueue_person_id_update_mutation db
        (PersonOverridesSnapshotDictionary.mk
          (PersonOverridesSnapshotTable.mk env.run_id_hex env.timestamp)) st)
      env.shard_states = .ok sm)
    (hwu : mapExcept (fun _ => waitMutation env.update_polls) sm = .error e) :
    squashRun db env =
      (["create_snapshot_table", "populate_snapshot_table",
        "wait_for_snapshot_table_replication", "create_snapshot_dictionary",
        "load_and_verify_snapshot_dictionary", "start_person_id_update_mutations",
        "wait_for_person_id_update_mutations"], .error e) := by
  unfold squashRun
  simp [andThen, PersonOverridesSnapshotTable.populate, hs, hlv, hsu, hwu]

/-- If enqueueing the overrides DELETE fails, the run stops after eight
stages. -/
theorem squashRun_startDelete_error (db : String) (env : PipelineEnv)
    (qs : List Unit) (sm : List (Mutation × MutState)) (ws : List Unit) (e : String)
    (hs : mapExcept (fun h => PersonOverridesSnapshotTable.sync h.queue_size)
      env.hosts = .ok qs)
    (hlv : load_and_verify_snapshot_dictionary env.hosts = .ok ())
    (hsu : mapExcept (fun st => enqueue_person_id_update_mutation db
        (PersonOverridesSnapshotDictionary.mk
          (PersonOverridesSnapshotTable.mk env.run_id_hex env.timestamp)) st)
      env.shard_states = .ok sm)
    (hwu : mapExcept (fun _ => waitMutation env.update_polls) sm = .ok ws)
    (hsd : enqueue_overrides_delete_mutation db
      (PersonOverridesSnapshotDictionary.mk
        (PersonOverridesSnapshotTable.mk env.run_id_hex env.timestamp))
      env.overrides_state = .error e) :
    squashRun db env =
      (["create_snapshot_table", "populate_snapshot_table",
        "wait_for_snapshot_table_replication", "create_snapshot_dictionary",
        "load_and_verify_snapshot_dictionary", "start_person_id_update_mutations",
        "wait_for_person_id_update_mutations",
        "start_overrides_delete_mutations"], .error e) := by
  unfold squashRun
  simp [andThen, PersonOverridesSnapshotTable.populate, hs, hlv, hsu, hwu, hsd]

/-- If waiting on the overrides DELETE fails, the run stops after nine
stages. -/
theorem squashRun_waitDelete_error (db : String) (env : PipelineEnv)
    (qs : List Unit) (sm : List (Mutation × MutState)) (ws : List Unit)
    (p : Mutation × MutState) (e : String)
    (hs : mapExcept (fun h => PersonOverridesSnapshotTable.sync h.queue_size)
      env.hosts = .ok qs)
    (hlv : load_and_verify_snapshot_dictionary env.hosts = .ok ())
    (hsu : mapExcept (fun st => enqueue_person_id_update_mutation db
        (PersonOverridesSnapshotDictionary.mk
          (PersonOverridesSnapshotTable.mk env.run_id_hex env.timestamp)) st)
      env.shard_states = .ok sm)
    (hwu : mapExcept (fun _ => waitMutation env.update_polls) sm = .ok ws)
    (hsd : enqueue_overrides_delete_mutation db
      (PersonOverridesSnapshotDictionary.mk
        (PersonOverridesSnapshotTable.mk env.run_id_hex env.timestamp))
      env.overrides_state = .ok p)
    (hwd : waitMutation env.delete_polls = .error e) :
    squashRun db env =
      (["create_snapshot_table", "populate_snapshot_table",
        "wait_for_snapshot_table_replication", "create_snapshot_dictionary",
        "load_and_verify_snapshot_dictionary", "start_person_id_update_mutations",
        "wait_for_person_id_update_mutations", "start_overrides_delete_mutations",
        "wait_for_overrides_delete_mutations"], .error e) := by
  unfold squashRun
  simp [andThen, PersonOverridesSnapshotTable.populate, hs, hlv, hsu, hwu, hsd, hwd]

/-- If every stage succeeds, the run executes all eleven stages in order. -/
theorem squashRun_success (db : String) (env : PipelineEnv)
    (qs : List Unit) (sm : List (Mutation × MutState)) (ws : List Unit)
    (p : Mutation × MutState)
    (hs : mapExcept (fun h => PersonOverridesSnapshotTable.sync h.queue_size)
      env.hosts = .ok qs)
    (hlv : load_and_verify_snapshot_dictionary env.hosts = .ok ())
    (hsu : mapExcept (fun st => enqueue_person_id_update_mutation db
        (PersonOverridesSnapshotDictionary.mk
          (PersonOverridesSnapshotTable.mk env.run_id_hex env.timestamp)) st)
      env.shard_states = .ok sm)
    (hwu : mapExcept (fun _ => waitMutation env.update_polls) sm = .ok ws)
    (hsd : enqueue_overrides_delete_mutation db
      (PersonOverridesSnapshotDictionary.mk
        (PersonOverridesSnapshotTable.mk env.run_id_hex env.timestamp))
      env.overrides_state = .ok p)
    (hwd : waitMutation env.delete_polls = .ok ()) :
    squashRun db env = (stageOrder, .ok ()) := by
  unfold squashRun stageOrder
  simp [andThen, PersonOverridesSnapshotTable.populate, hs, hlv, hsu, hwu, hsd, hwd]

/-- C9. Every run of `squash_person_overrides` starts stages only in the
fixed linear order create → populate → sync → create-dictionary →
load-and-verify → start updates → wait updates → start delete → wait
delete → drop dictionary → drop table (the started-stage trace is always a
prefix of that order, so in particular the cluster-wide delete starts only
after all shard update waits completed), and a successful run starts all
eleven stages in exactly that order. -/
theorem C9_linear_stage_order (db : String) (env : PipelineEnv) :
    (∃ rest, (squashRun db env).1 ++ rest = stageOrder) ∧
    ((squashRun db env).2 = .ok () → (squashRun db env).1 = stageOrder) := by
  cases hs : mapExcept (fun h => PersonOverridesSnapshotTable.sync h.queue_size)
      env.hosts with
  | error e =>
      rw [squashRun_sync_error db env e hs]
      exact ⟨⟨["create_snapshot_dictionary", "load_and_verify_snapshot_dictionary",
        "start_person_id_update_mutations", "wait_for_person_id_update_mutations",
        "start_overrides_delete_mutations", "wait_for_overrides_delete_mutations",
        "drop_snapshot_dictionary", "drop_snapshot_table"], rfl⟩,
        fun hcontra => by simp at hcontra⟩
  | ok qs =>
      cases hlv : load_and_verify_snapshot_dictionary env.hosts with
      | error e =>
          rw [squashRun_loadVerify_error db env qs e hs hlv]
          exact ⟨⟨["start_person_id_update_mutations",
            "wait_for_person_id_update_mutations", "start_overrides_delete_mutations",
            "wait_for_overrides_delete_mutations", "drop_snapshot_dictionary",
            "drop_snapshot_table"], rfl⟩, fun hcontra => by simp at hcontra⟩
      | ok u =>
          cases u
          cases hsu : mapExcept (fun st => enqueue_person_id_update_mutation db
              (PersonOverridesSnapshotDictionary.mk
                (PersonOverridesSnapshotTable.mk env.run_id_hex env.timestamp)) st)
              env.shard_states with
          | error e =>
              rw [squashRun_startUpdates_error db env qs e hs hlv hsu]
              exact ⟨⟨["wait_for_person_id_update_mutations",
                "start_overrides_delete_mutations",
                "wait_for_overrides_delete_mutations", "drop_snapshot_dictionary",
                "drop_snapshot_table"], rfl⟩, fun hcontra => by simp at hcontra⟩
          | ok sm =>
              cases hwu : mapExcept (fun _ => waitMutation env.update_polls) sm with
              | error e =>
                  rw [squashRun_waitUpdates_error db env qs sm e hs hlv hsu hwu]
                  exact ⟨⟨["start_overrides_delete_mutations",
                    "wait_for_overrides_delete_mutations", "drop_snapshot_dictionary",
                    "drop_snapshot_table"], rfl⟩, fun hcontra => by simp at hcontra⟩
              | ok ws =>
                  cases hsd : enqueue_overrides_delete_mutation db
                      (PersonOverridesSnapshotDictionary.mk
                        (PersonOverridesSnapshotTable.mk env.run_id_hex env.timestamp))
                      env.overrides_state with
                  | error e =>
                      rw [squashRun_startDelete_error db env qs sm ws e hs hlv hsu hwu hsd]
                      exact ⟨⟨["wait_for_overrides_delete_mutations",
                        "drop_snapshot_dictionary", "drop_snapshot_table"], rfl⟩,
                        fun hcontra => by simp at hcontra⟩
                  | ok p =>
                      cases hwd : waitMutation env.delete_polls with
                      | error e =>
                          rw [squashRun_waitDelete_error db env qs sm ws p e
                            hs hlv hsu hwu hsd hwd]
                          exact ⟨⟨["drop_snapshot_dictionary", "drop_snapshot_table"],
                            rfl⟩, fun hcontra => by simp at hcontra⟩
                      | ok u2 =>
                          cases u2
                          rw [squashRun_success db env qs sm ws p hs hlv hsu hwu hsd hwd]
                          exact ⟨⟨[], by simp⟩, fun _ => rfl⟩

/-- Witness for C9: on the all-healthy environment `exEnv`, the run
succeeds and its started-stage trace is exactly the full stage order. -/
theorem C9_linear_stage_order_witness :
    (squashRun "posthog" exEnv).1 = stageOrder :=
  (C9_linear_stage_order "posthog" exEnv).2 (by rfl)

/-- C4. If two hosts report different dictionary checksums,
`load_and_verify_snapshot_dictionary` fails its all-identical assertion, the
pipeline run fails, and neither mutation-enqueue stage is ever started. -/
theorem C4_checksum_gate (db : String) (env : PipelineEnv)
    (h : ∃ a ∈ env.hosts.map HostEnv.checksum,
      ∃ b ∈ env.hosts.map HostEnv.checksum, a ≠ b) :
    (∃ e, (squashRun db env).2 = .error e) ∧
    "start_person_id_update_mutations" ∉ (squashRun db env).1 ∧
    "start_overrides_delete_mutations" ∉ (squashRun db env).1 := by
  obtain ⟨e0, hlv⟩ := load_and_verify_fails_of_diverging env.hosts h
  cases hs : mapExcept (fun h => PersonOverridesSnapshotTable.sync h.queue_size)
      env.hosts with
  | error e =>
      rw [squashRun_sync_error db env e hs]
      refine ⟨⟨e, rfl⟩, ?_, ?_⟩ <;> simp
  | ok qs =>
      rw [squashRun_loadVerify_error db env qs e0 hs hlv]
      refine ⟨⟨e0, rfl⟩, ?_, ?_⟩ <;> simp

/-- Witness for C4: two hosts reporting checksums 7 and 8 make the run fail
before either mutation-enqueue stage starts. -/
theorem C4_checksum_gate_witness :
    (∃ e, (squashRun "posthog" exEnvDiv).2 = .error e) ∧
    "start_person_id_update_mutations" ∉ (squashRun "posthog" exEnvDiv).1 ∧
    "start_overrides_delete_mutations" ∉ (squashRun "posthog" exEnvDiv).1 :=
  C4_checksum_gate "posthog" exEnvDiv (by decide)

end PersonOverrides
